import Mathlib

/-
Verification development for the GenAI-Email-Processor repository.

Shallow embedding of the order-fulfillment engine (src/OrderProcessor.py),
the tabular store adapter (src/GoogleSheetsManager.py) and the
classification cache (src/EmailClassifier.py), together with theorems
settling the frozen claims about them.

Modelling conventions:
- Python integers are `Int`, counts are `Nat`.
- Python dict values appearing in spreadsheet rows are modelled by `PyVal`
  (a string, an integer, or Python's `None`), with `PyVal.toStr` playing
  the role of Python's `str(...)`.
- A Python dict is an association list; insertion overwrites in place
  (Python dict assignment keeps the original key position).
- External collaborators (the inventory service, the remote spreadsheet,
  the LLM classifier) are parameters: the inventory is an oracle
  `Nat → String → StockResp` giving the outcome of the n-th stock read,
  which already accounts for the tenacity retry wrapper (`reraise=True`
  re-raises the final error, so one oracle answer per
  `_get_current_stock` call).
- Exceptions are modelled with `Except`; `PyError.typeError` stands for
  the `TypeError` raised by `None - int`, `PyError.remoteError` for a
  remote failure that survived the retry wrapper.
- Wall-clock effects (`time.sleep`, the `timestamp` field, tqdm progress
  bars, logging) are elided: no claim mentions them.
-/

namespace GenAIEmail

/-- A Python value as it occurs in rows and cells: a string, an int, or None. -/
inductive PyVal where
  | vstr (s : String)
  | vint (n : Int)
  | vnone
  deriving DecidableEq, Repr

/-- Python `str(...)` on a `PyVal`. -/
def PyVal.toStr : PyVal → String
  | .vstr s => s
  | .vint n => toString n
  | .vnone => "None"

/-- A spreadsheet record / row dictionary: ordered keys to values. -/
abbrev Row := List (String × PyVal)

/-- Python dict lookup `d.get(k)` as an option: the first binding of `k`
(dicts built by `dictInsert` have unique keys). -/
def dictLookup {α : Type} : List (String × α) → String → Option α
  | [], _ => none
  | kv :: rest, k => if kv.1 = k then some kv.2 else dictLookup rest k

/-- Python `row.get(k, default)`: the value of the first binding of `k`, else the default. -/
def rowGet (row : Row) (k : String) (default : PyVal) : PyVal :=
  (dictLookup row k).getD default

/-- Python dict assignment `d[k] = v`: overwrite in place if the key exists,
otherwise append at the end (Python dicts keep insertion order). -/
def dictInsert {α : Type} (l : List (String × α)) (k : String) (v : α) :
    List (String × α) :=
  if l.any (fun kv => kv.1 = k) then
    l.map (fun kv => if kv.1 = k then (k, v) else kv)
  else
    l ++ [(k, v)]

/-! ## Order fulfillment engine: src/OrderProcessor.py -/

/-- Outcome of one `_get_current_stock` call, after the retry wrapper:
an integer stock level, Python `None` (product unknown), or a raised error. -/
inductive StockResp where
  | val (s : Int)
  | notFound
  | err
  deriving DecidableEq, Repr

/-- The inventory collaborator as an oracle: the answer to the n-th stock
read for a given product id. -/
abbrev Inv := Nat → String → StockResp

/-- Errors `process_order` can raise: `TypeError` from `None - int` at the
`remaining_stock` computation, or a remote error re-raised by the retry
wrapper of the second stock read. -/
inductive PyError where
  | typeError
  | remoteError
  deriving DecidableEq, Repr

/-- Python `str(e)` for the caught exception, as stored by `bulk_process`. -/
def PyError.msg : PyError → String
  | .typeError => "unsupported operand type(s) for -: 'NoneType' and 'int'"
  | .remoteError => "stock check failed"

/-- `OrderProcessor._validate_order_item` (src/OrderProcessor.py lines 42-65).
Returns the (status, available_qty) pair and the next read-oracle index;
for `requested_qty <= 0` no inventory read happens. -/
def validate_order_item (inv : Inv) (n : Nat) (pid : String) (q : Int) :
    (String × Int) × Nat :=
  if q ≤ 0 then
    (("invalid_quantity", 0), n)
  else
    match inv n pid with
    | .val s => ((if s ≥ q then "available" else "partial", min s q), n + 1)
    | .notFound => (("invalid_product", 0), n + 1)
    | .err => (("check_failed", 0), n + 1)

/-- One step of the order-level status aggregation
(src/OrderProcessor.py lines 103-107): any non-available item sets the
running status to "partial", then an invalid_product item sets it to
"failed". -/
def update_overall (overall status : String) : String :=
  let o1 := if status ≠ "available" then "partial" else overall
  if status = "invalid_product" then "failed" else o1

/-- The order-level status after folding `update_overall` over the per-item
statuses left to right, starting from "fulfilled". -/
def aggregate_status (statuses : List String) : String :=
  statuses.foldl update_overall "fulfilled"

/-- One entry of the per-item report built by `process_order`. -/
structure ItemResult where
  product_id : String
  requested : Int
  fulfilled : Int
  status : String
  remaining_stock : Int
  deriving DecidableEq, Repr

/-- The dictionary returned by `process_order` (timestamp elided). -/
structure OrderResult where
  order_id : String
  status : String
  items : List ItemResult
  deriving DecidableEq, Repr

/-- The item loop of `process_order` (src/OrderProcessor.py lines 94-118):
validate each item, fold the overall status, then recompute
`remaining_stock` via a second unprotected stock read; that read raises
`TypeError` on `None` and propagates a remote error. On an error the
oracle index reached so far is carried along. -/
def process_items (inv : Inv) (n : Nat) (overall : String) :
    List (String × Int) →
    Except (PyError × Nat) (List ItemResult × String × Nat)
  | [] => .ok ([], overall, n)
  | (pid, q) :: rest =>
    let v := validate_order_item inv n pid q
    let status := v.1.1
    let availableQty := v.1.2
    let n1 := v.2
    let overall1 := update_overall overall status
    match inv n1 pid with
    | .val s =>
      match process_items inv (n1 + 1) overall1 rest with
      | .ok (items, ov, n2) =>
        .ok ({ product_id := pid, requested := q, fulfilled := availableQty,
               status := status, remaining_stock := s - availableQty } :: items,
             ov, n2)
      | .error e => .error e
    | .notFound => .error (.typeError, n1 + 1)
    | .err => .error (.remoteError, n1 + 1)

/-- `OrderProcessor.process_order` (src/OrderProcessor.py lines 67-128),
without the ledger side effect: the result dictionary, or the exception
that escaped the item loop. -/
def process_order (inv : Inv) (n : Nat) (orderId : String)
    (items : List (String × Int)) : Except (PyError × Nat) (OrderResult × Nat) :=
  match process_items inv n "fulfilled" items with
  | .ok (processedItems, overall, n1) =>
    .ok ({ order_id := orderId, status := overall, items := processedItems }, n1)
  | .error e => .error e

/-- `process_order` together with its ledger side effect: the assignment
`self.processed_orders[order_id] = result` is the last statement before
`return`, so it happens exactly when no exception escaped the loop. -/
def process_order_ledger (inv : Inv) (n : Nat)
    (ledger : List (String × OrderResult)) (orderId : String)
    (items : List (String × Int)) :
    Except (PyError × Nat) (OrderResult × Nat) × List (String × OrderResult) :=
  match process_order inv n orderId items with
  | .ok (r, n1) => (.ok (r, n1), dictInsert ledger orderId r)
  | .error e => (.error e, ledger)

/-- An entry of the `processed_orders` map in the `bulk_process` summary:
either a full order result, or the error record
`{"error": str(e), "status": "processing_error"}`. -/
inductive OrderEntry where
  | ok (r : OrderResult)
  | procError (e : String)
  deriving DecidableEq, Repr

/-- The summary dictionary built by `bulk_process`. -/
structure BulkSummary where
  success_count : Nat
  failed_count : Nat
  processed_orders : List (String × OrderEntry)
  inventory_changes : List (String × Int)
  deriving DecidableEq, Repr

/-- Fold one processed order's items into the `inventory_changes` delta map:
`requested - fulfilled` summed per product. -/
def add_inventory_changes (changes : List (String × Int)) (items : List ItemResult) :
    List (String × Int) :=
  items.foldl
    (fun acc it =>
      dictInsert acc it.product_id
        ((dictLookup acc it.product_id).getD 0 + (it.requested - it.fulfilled)))
    changes

/-- The order loop of `OrderProcessor.bulk_process`
(src/OrderProcessor.py lines 153-180): each order is processed inside a
try/except; an escaping exception is converted into a
`processing_error` entry for that order alone and the loop continues.
The engine ledger (`self.processed_orders`) is threaded alongside. -/
def bulk_process_go (inv : Inv) (n : Nat) (ledger : List (String × OrderResult))
    (acc : BulkSummary) :
    List (String × List (String × Int)) →
    BulkSummary × List (String × OrderResult) × Nat
  | [] => (acc, ledger, n)
  | (orderId, items) :: rest =>
    match process_order_ledger inv n ledger orderId items with
    | (.ok (r, n1), ledger1) =>
      let acc1 : BulkSummary :=
        { success_count :=
            acc.success_count + (if r.status = "fulfilled" then 1 else 0)
          failed_count :=
            acc.failed_count + (if r.status = "fulfilled" then 0 else 1)
          processed_orders := dictInsert acc.processed_orders orderId (.ok r)
          inventory_changes := add_inventory_changes acc.inventory_changes r.items }
      bulk_process_go inv n1 ledger1 acc1 rest
    | (.error (e, n1), ledger1) =>
      let acc1 : BulkSummary :=
        { success_count := acc.success_count
          failed_count := acc.failed_count + 1
          processed_orders := dictInsert acc.processed_orders orderId (.procError e.msg)
          inventory_changes := acc.inventory_changes }
      bulk_process_go inv n1 ledger1 acc1 rest

/-- `OrderProcessor.bulk_process` (src/OrderProcessor.py lines 130-182),
starting from an empty summary. -/
def bulk_process (inv : Inv) (n : Nat) (ledger : List (String × OrderResult))
    (orders : List (String × List (String × Int))) :
    BulkSummary × List (String × OrderResult) × Nat :=
  bulk_process_go inv n ledger
    { success_count := 0, failed_count := 0,
      processed_orders := [], inventory_changes := [] } orders

/-! ## Tabular store adapter: src/GoogleSheetsManager.py

Remote collaborators are made explicit: each embedded operation returns,
besides the report the Python function returns, the list (or count) of
remote calls it issued, so that claims about "remote append calls" and
"remote update calls" are statements about the embedding's output. Row
validation (`validate_row`, whose outcome depends on the pydantic schema
collaborator) is a boolean predicate parameter. -/

/-- The report dictionary returned by `append_rows`. -/
structure AppendReport where
  success : Nat
  failed : Nat
  batches : Nat
  errors : List String
  deriving DecidableEq, Repr

/-- Projection of a row dict into header order:
`[str(row.get(col, "")) for col in header_order]`. -/
def projectRow (header : List String) (row : Row) : List String :=
  header.map (fun col => (rowGet row col (.vstr "")).toStr)

/-- Header order used by `append_rows`: the registered schema's headers if a
schema exists, else the first row's keys, else empty. -/
def headerOrderOf (schemaHeaders : Option (List String)) (rows : List Row) :
    List String :=
  match schemaHeaders with
  | some hs => hs
  | none =>
    match rows with
    | [] => []
    | r :: _ => r.map (fun kv => kv.1)

/-- The batch loop of `append_rows` (src/GoogleSheetsManager.py lines
149-167): slice off `b` rows at a time (`i` is the Python slice start
index used in the error message), count valid and invalid rows, and issue
one remote `worksheet.append_rows` call per batch that has at least one
valid row. The second component is the list of remote append calls, each
carrying the projected values it sends. Meaningful for `b ≥ 1`
(`range(0, n, 0)` raises in Python). -/
def append_rows_go (validRow : Row → Bool) (header : List String) (b : Nat)
    (i : Nat) : List Row → AppendReport × List (List (List String))
  | [] => ({ success := 0, failed := 0, batches := 0, errors := [] }, [])
  | x :: xs =>
    let batch := x :: xs.take (b - 1)
    let validBatch := batch.filter (fun r => validRow r)
    let invalidCount := (batch.filter (fun r => !validRow r)).length
    let rest := append_rows_go validRow header b (i + b) (xs.drop (b - 1))
    ({ success := validBatch.length + rest.1.success,
       failed := invalidCount + rest.1.failed,
       batches := (if validBatch.isEmpty then 0 else 1) + rest.1.batches,
       errors :=
         List.replicate invalidCount ("Row " ++ toString i ++ " validation failed")
           ++ rest.1.errors },
     if validBatch.isEmpty then rest.2
     else validBatch.map (projectRow header) :: rest.2)
termination_by l => l.length
decreasing_by simp [List.length_drop]; omega

/-- `GoogleSheetsManager.append_rows` (src/GoogleSheetsManager.py lines
119-168): report and list of remote append calls. -/
def append_rows (validRow : Row → Bool) (schemaHeaders : Option (List String))
    (b : Nat) (rows : List Row) : AppendReport × List (List (List String)) :=
  append_rows_go validRow (headerOrderOf schemaHeaders rows) b 0 rows

/-- The `BatchUpdate` dataclass (src/GoogleSheetsManager.py lines 24-27). -/
structure BatchUpdate where
  range : String
  values : List (List PyVal)
  deriving DecidableEq, Repr

/-- The report dictionary returned by `batch_update`. -/
structure UpdateReport where
  updated_cells : Nat
  failed_ranges : List String
  deriving DecidableEq, Repr

/-- `GoogleSheetsManager.batch_update` (src/GoogleSheetsManager.py lines
170-211). `remoteOk` is whether the single `worksheet.batch_update(body)`
call succeeds; the second component counts remote multi-range update
calls issued — exactly one either way, since the call is made before the
cell-count sum. That sum (`len(update.values) * len(update.values[0])`)
is computed inside the same `try`, so an update with an empty values
block raises IndexError after the successful remote call and also lands
in the `except` branch. -/
def batch_update (remoteOk : Bool) (updates : List BatchUpdate) :
    UpdateReport × Nat :=
  if remoteOk && updates.all (fun u => !u.values.isEmpty) then
    ({ updated_cells :=
         (updates.map (fun u => u.values.length * (u.values.head?.getD []).length)).sum,
       failed_ranges := [] }, 1)
  else
    ({ updated_cells := 0, failed_ranges := updates.map (fun u => u.range) }, 1)

/-- Python truthiness of a string: non-empty strings are truthy. -/
def pyTruthy (s : String) : Bool := !(s = "")

/-- Python `str(b)` for a bool: "True" or "False". -/
def pyStrOfBool (b : Bool) : String := if b then "True" else "False"

/-- Python `==` between a raw cell value and a string: `int == str` and
`None == str` are False; strings compare by exact, case-sensitive
equality. -/
def pyEqValStr (v : PyVal) (s : String) : Bool :=
  match v with
  | .vstr a => a = s
  | .vint _ => false
  | .vnone => false

/-- `GoogleSheetsManager.find_rows` (src/GoogleSheetsManager.py lines
213-237). The condition expression on lines 231-234 does not parse: the
`str(` opened on line 232 is never closed, so the module as written is a
SyntaxError. Under the minimal repair that closes it at the end of line
232, each element of the `all(...)` generator is
`str(record.get(k, "") == str(v))` — the string "True" or "False" — and
`all` tests Python truthiness of those non-empty strings, so every
record passes every condition. This definition embeds that repaired
reading token by token. -/
def find_rows (records : List Row) (conditions : List (String × PyVal)) :
    List Row :=
  records.filter (fun record =>
    conditions.all (fun kv =>
      pyTruthy (pyStrOfBool (pyEqValStr (rowGet record kv.1 (.vstr "")) kv.2.toStr))))

/-- Modelled from the spec: the intended `find_rows` the docstring and the
spec describe ("returns those where every condition key's stringified
value matches exactly (case-sensitive, no pattern/partial match)") — the
behaviour the broken expression `str(record.get(k, "")) == str(v)` was
evidently meant to have. -/
def find_rows_spec (records : List Row) (conditions : List (String × PyVal)) :
    List Row :=
  records.filter (fun record =>
    conditions.all (fun kv => (rowGet record kv.1 (.vstr "")).toStr = kv.2.toStr))

/-- The report dictionary returned by `update_or_create`. -/
structure UpsertReport where
  updated : Nat
  created : Nat
  errors : Nat
  deriving DecidableEq, Repr

/-- The `existing_ids` dict of `update_or_create` (src/GoogleSheetsManager.py
lines 259-263): stringified id value of each record containing the id
column, mapped to its absolute sheet row `idx + 2` (header row plus
1-based indexing); a later record with the same id overwrites an earlier
one, as in a Python dict comprehension. -/
def existing_ids (idCol : String) (records : List Row) : List (String × Nat) :=
  records.enum.foldl
    (fun acc p =>
      match p.2.find? (fun kv => kv.1 = idCol) with
      | some kv => dictInsert acc kv.2.toStr (p.1 + 2)
      | none => acc) []

/-- `str(row.get(id_column))` for an input row: Python's `.get` defaults to
`None`, whose str is "None". -/
def rowIdOf (idCol : String) (row : Row) : String :=
  (rowGet row idCol .vnone).toStr

/-- The A1-notation range string `f"A{row_num}:{chr(64 + len(row))}{row_num}"`
built for a single-row update. -/
def mkRangeStr (rowNum colCount : Nat) : String :=
  "A" ++ toString rowNum ++ ":"
    ++ String.singleton (Char.ofNat (64 + colCount)) ++ toString rowNum

/-- The row loop of `update_or_create` (src/GoogleSheetsManager.py lines
268-285): an invalid row only counts as an error; a valid row whose
stringified id is in `existing` enqueues one single-row `BatchUpdate` at
that absolute row; a valid row with a novel id goes through
`self.append_rows(sheet_name, [row])`, whose remote append calls are
collected in the third component. -/
def update_or_create_go (validRow : Row → Bool)
    (schemaHeaders : Option (List String)) (idCol : String)
    (existing : List (String × Nat)) :
    List Row → UpsertReport × List BatchUpdate × List (List (List String))
  | [] => ({ updated := 0, created := 0, errors := 0 }, [], [])
  | row :: rest =>
    let r := update_or_create_go validRow schemaHeaders idCol existing rest
    if validRow row then
      match dictLookup existing (rowIdOf idCol row) with
      | some rowNum =>
        ({ r.1 with updated := r.1.updated + 1 },
         { range := mkRangeStr rowNum row.length,
           values := [row.map (fun kv => rowGet row kv.1 (.vstr ""))] } :: r.2.1,
         r.2.2)
      | none =>
        ({ r.1 with created := r.1.created + 1 },
         r.2.1,
         (append_rows validRow schemaHeaders 100 [row]).2 ++ r.2.2)
    else
      ({ r.1 with errors := r.1.errors + 1 }, r.2.1, r.2.2)

/-- `GoogleSheetsManager.update_or_create` (src/GoogleSheetsManager.py lines
239-290): the report, the enqueued range updates, the remote append
calls, and the number of `batch_update` invocations (one iff any update
was enqueued). `records` is the full sheet read
(`worksheet.get_all_records()`), done once per invocation. -/
def update_or_create (validRow : Row → Bool)
    (schemaHeaders : Option (List String)) (idCol : String)
    (records : List Row) (rows : List Row) :
    UpsertReport × List BatchUpdate × List (List (List String)) × Nat :=
  let go := update_or_create_go validRow schemaHeaders idCol
    (existing_ids idCol records) rows
  (go.1, go.2.1, go.2.2, if go.2.1.isEmpty then 0 else 1)

/-! ## Classification cache: src/EmailClassifier.py -/

/-- `EmailClassifier._clean_text`: `text.strip()[:2000]`. -/
def clean_text (t : String) : String := t.trim.take 2000

/-- Python's `"order" in result` substring test: a string contains "order"
iff splitting on it yields more than one part. -/
def containsOrder (s : String) : Bool := (s.splitOn "order").length ≠ 1

/-- `EmailClassifier._classify_single` (src/EmailClassifier.py lines
95-116) for a successful classifier collaborator. The cache key models
`hash(f"{subject}{message}")`: equal (subject, message) pairs give equal
keys. Returns the label, the updated cache, and how many times the
external classifier chain was invoked (0 on a cache hit, 1 on a miss).
`classify` is the collaborator (prompt | llm | parser) applied to the
cleaned subject and message; its raw label is lowercased, stripped and
normalized by substring containment of "order". -/
def classify_single (classify : String → String → String)
    (orderLabel inquiryLabel : String) (cache : List (String × String))
    (subject message : String) :
    String × List (String × String) × Nat :=
  let key := subject ++ message
  match dictLookup cache key with
  | some label => (label, cache, 0)
  | none =>
    let raw := (classify (clean_text subject) (clean_text message)).toLower.trim
    let label := if containsOrder raw then orderLabel else inquiryLabel
    (label, dictInsert cache key label, 1)

/-! ## Helper lemmas about the Python-dict model -/

theorem dictLookup_map_overwrite {α : Type} (ps : List (String × α)) (k : String)
    (v : α) (h : ps.any (fun kv => kv.1 = k) = true) :
    dictLookup (ps.map (fun kv => if kv.1 = k then (k, v) else kv)) k = some v := by
  induction ps with
  | nil => simp at h
  | cons p ps ih =>
    by_cases hp : p.1 = k
    · simp [dictLookup, hp]
    · have h2 : ps.any (fun kv => kv.1 = k) = true := by
        simp [List.any_cons, hp] at h
        simpa using h
      simp [dictLookup, hp, ih h2]

theorem dictLookup_map_overwrite_ne {α : Type} (ps : List (String × α)) (k : String)
    (v : α) (s : String) (hs : s ≠ k) :
    dictLookup (ps.map (fun kv => if kv.1 = k then (k, v) else kv)) s =
      dictLookup ps s := by
  have hk : ¬ k = s := fun h => hs h.symm
  induction ps with
  | nil => rfl
  | cons p ps ih =>
    simp only [List.map_cons]
    by_cases hp : p.1 = k
    · rw [if_pos hp]
      have hps : ¬ p.1 = s := fun h => hk (hp ▸ h)
      simp [dictLookup, hk, hps, ih]
    · rw [if_neg hp]
      by_cases hps : p.1 = s
      · simp [dictLookup, hps]
      · simp [dictLookup, hps, ih]

theorem dictLookup_append_single {α : Type} (ps : List (String × α)) (k : String)
    (v : α) (s : String) (hs : s ≠ k) :
    dictLookup (ps ++ [(k, v)]) s = dictLookup ps s := by
  have hk : ¬ k = s := fun h => hs h.symm
  induction ps with
  | nil => simp [dictLookup, hk]
  | cons p ps ih =>
    by_cases hps : p.1 = s
    · simp [dictLookup, hps]
    · simp [dictLookup, hps, ih]

theorem dictLookup_append_single_self {α : Type} (ps : List (String × α))
    (k : String) (v : α) (h : ps.any (fun kv => kv.1 = k) = false) :
    dictLookup (ps ++ [(k, v)]) k = some v := by
  induction ps with
  | nil => simp [dictLookup]
  | cons p ps ih =>
    have h1 : ¬ p.1 = k := by
      by_contra hc
      simp [List.any_cons, hc] at h
    have h2 : ps.any (fun kv => kv.1 = k) = false := by
      cases hx : ps.any (fun kv => kv.1 = k) with
      | false => rfl
      | true => simp [List.any_cons, hx] at h
    simp [dictLookup, h1, ih h2]

theorem dictLookup_dictInsert_self {α : Type} (l : List (String × α)) (k : String)
    (v : α) : dictLookup (dictInsert l k v) k = some v := by
  unfold dictInsert
  by_cases h : l.any (fun kv => kv.1 = k) = true
  · simp only [h, if_true]
    exact dictLookup_map_overwrite l k v h
  · simp only [h, if_false]
    refine dictLookup_append_single_self l k v ?_
    cases hx : l.any (fun kv => kv.1 = k) with
    | false => rfl
    | true => exact absurd hx h

theorem dictLookup_dictInsert_ne {α : Type} (l : List (String × α)) (k : String)
    (v : α) (s : String) (hs : s ≠ k) :
    dictLookup (dictInsert l k v) s = dictLookup l s := by
  unfold dictInsert
  by_cases h : l.any (fun kv => kv.1 = k) = true
  · simp only [h, if_true]
    exact dictLookup_map_overwrite_ne l k v s hs
  · simp only [h, if_false]
    exact dictLookup_append_single l k v s hs


/-! ## Claim theorems -/

/-- C1: for every call to the per-item validator with a product_id and
requested_qty: if requested_qty ≤ 0 it returns ("invalid_quantity", 0) and
makes no inventory-service call (the read index is unchanged); otherwise,
when the inventory read returns integer stock s ≥ 0, it returns
("available", requested_qty) when s ≥ requested_qty and ("partial", s)
when s < requested_qty — i.e. fulfilled = min s requested_qty in both
cases. -/
theorem C1_validate_order_item_cases (inv : Inv) (n : Nat) (pid : String) (q : Int) :
    (q ≤ 0 → validate_order_item inv n pid q = (("invalid_quantity", 0), n)) ∧
    (∀ s : Int, 0 < q → 0 ≤ s → inv n pid = .val s →
      (q ≤ s → validate_order_item inv n pid q = (("available", q), n + 1)) ∧
      (s < q → validate_order_item inv n pid q = (("partial", s), n + 1)) ∧
      (validate_order_item inv n pid q).1.2 = min s q) := by
  refine ⟨fun h => by simp [validate_order_item, h], fun s hq hs hinv => ?_⟩
  have hq' : ¬ q ≤ 0 := not_le.mpr hq
  refine ⟨fun h => ?_, fun h => ?_, ?_⟩
  · simp [validate_order_item, hq', hinv, ge_iff_le, h, min_eq_right h]
  · simp [validate_order_item, hq', hinv, ge_iff_le, not_le.mpr h,
      min_eq_left (le_of_lt h)]
  · simp [validate_order_item, hq', hinv]

/-- Witness for C1 at concrete inputs: quantity 0 makes no call; stock 3
against requests 2 and 5 gives ("available", 2) and ("partial", 3). -/
theorem C1_validate_order_item_cases_witness :
    validate_order_item (fun _ _ => .val 3) 0 "P1" 0 = (("invalid_quantity", 0), 0) ∧
    validate_order_item (fun _ _ => .val 3) 0 "P1" 2 = (("available", 2), 1) ∧
    validate_order_item (fun _ _ => .val 3) 0 "P1" 5 = (("partial", 3), 1) :=
  ⟨(C1_validate_order_item_cases (fun _ _ => .val 3) 0 "P1" 0).1 (by norm_num),
   ((C1_validate_order_item_cases (fun _ _ => .val 3) 0 "P1" 2).2 3
     (by norm_num) (by norm_num) rfl).1 (by norm_num),
   ((C1_validate_order_item_cases (fun _ _ => .val 3) 0 "P1" 5).2 3
     (by norm_num) (by norm_num) rfl).2.1 (by norm_num)⟩

/-- C2 counterexample: the aggregation is not monotone non-improving. After
an invalid_product item the running order status is "failed", but a
subsequent non-available item resets it to "partial" (lines 104-105 run
unconditionally before the invalid_product check). A full `process_order`
run shows it: with an inventory whose first read reports the product
missing and later reads return stock 0, the first item is
invalid_product yet the final order status is "partial", not "failed". -/
theorem C2_aggregation_counterexample :
    aggregate_status ["invalid_product"] = "failed" ∧
    aggregate_status ["invalid_product", "partial"] = "partial" ∧
    process_order (fun n _ => if n = 0 then StockResp.notFound else .val 0) 0 "O1"
        [("P1", 1), ("P2", 5)] =
      .ok ({ order_id := "O1", status := "partial",
             items := [{ product_id := "P1", requested := 1, fulfilled := 0,
                         status := "invalid_product", remaining_stock := 0 },
                       { product_id := "P2", requested := 5, fulfilled := 0,
                         status := "partial", remaining_stock := 0 }] }, 4) := by
  refine ⟨by decide, by decide, rfl⟩

/-- C3 (evaluation at the failing input): with an inventory that signals the
product as not existing on every read, the validator does return
("invalid_product", 0), but `process_order` then raises TypeError while
computing remaining_stock (`None - 0`) and so does not return a failed
order result. -/
theorem C3_process_order_raises_on_missing_product :
    validate_order_item (fun _ _ => .notFound) 0 "PX" 1 = (("invalid_product", 0), 1) ∧
    process_order (fun _ _ => .notFound) 0 "O1" [("PX", 1)] =
      .error (.typeError, 2) := by
  refine ⟨by decide, rfl⟩

/-- C6 (evaluation at the failing input): `find_rows` under the minimal
repair of its unparenthesized condition returns every record — here a
record with status "open" is returned although the condition demands
status "closed" — while the exact-match behaviour the docstring and spec
describe returns only the matching record. -/
theorem C6_find_rows_ignores_conditions :
    find_rows [[("status", PyVal.vstr "open")], [("status", PyVal.vstr "closed")]]
        [("status", PyVal.vstr "closed")] =
      [[("status", PyVal.vstr "open")], [("status", PyVal.vstr "closed")]] ∧
    find_rows_spec [[("status", PyVal.vstr "open")], [("status", PyVal.vstr "closed")]]
        [("status", PyVal.vstr "closed")] =
      [[("status", PyVal.vstr "closed")]] := by
  refine ⟨by decide, by decide⟩

/-- C7: classification is idempotent via the cache. For every collaborator,
labels, starting cache and email, classifying the same (subject, message)
pair twice returns the same label both times, the second classification
invokes the collaborator zero times, and the two classifications together
invoke it at most once. -/
theorem C7_classification_idempotent (classify : String → String → String)
    (orderLabel inquiryLabel : String) (cache : List (String × String))
    (subject message : String) :
    (classify_single classify orderLabel inquiryLabel
        (classify_single classify orderLabel inquiryLabel cache subject message).2.1
        subject message).1 =
      (classify_single classify orderLabel inquiryLabel cache subject message).1 ∧
    (classify_single classify orderLabel inquiryLabel
        (classify_single classify orderLabel inquiryLabel cache subject message).2.1
        subject message).2.2 = 0 ∧
    (classify_single classify orderLabel inquiryLabel cache subject message).2.2 +
      (classify_single classify orderLabel inquiryLabel
        (classify_single classify orderLabel inquiryLabel cache subject message).2.1
        subject message).2.2 ≤ 1 := by
  cases h : dictLookup cache (subject ++ message) with
  | some label => simp [classify_single, h]
  | none => simp [classify_single, h, dictLookup_dictInsert_self]

/-- C9: for every call to `batch_update`, exactly one remote multi-range
update call is issued; when the remote call fails the report is zero
updated cells plus the full list of requested ranges; and no report ever
mixes a positive updated-cell count with a non-empty failed-range list. -/
theorem C9_batch_update_all_or_nothing (remoteOk : Bool) (updates : List BatchUpdate) :
    (batch_update remoteOk updates).2 = 1 ∧
    (remoteOk = false →
      (batch_update remoteOk updates).1 =
        { updated_cells := 0, failed_ranges := updates.map (fun u => u.range) }) ∧
    ((batch_update remoteOk updates).1.updated_cells ≠ 0 →
      (batch_update remoteOk updates).1.failed_ranges = []) ∧
    ((batch_update remoteOk updates).1.failed_ranges ≠ [] →
      (batch_update remoteOk updates).1.updated_cells = 0) := by
  by_cases h : (remoteOk && updates.all fun u => !u.values.isEmpty) = true
  · refine ⟨by simp [batch_update, h], fun hr => ?_, by simp [batch_update, h], by simp [batch_update, h]⟩
    rw [hr] at h
    simp at h
  · refine ⟨by simp [batch_update, h], fun _ => by simp [batch_update, h],
      fun h3 => ?_, by simp [batch_update, h]⟩
    exact absurd (by simp [batch_update, h]) h3

/-- Witness for C9: a failing remote call yields the full failed-range list;
a succeeding one with a non-zero cell count yields no failed ranges. -/
theorem C9_batch_update_all_or_nothing_witness :
    (batch_update false [{ range := "A2:B2", values := [[PyVal.vstr "a"]] }]).1 =
      { updated_cells := 0, failed_ranges := ["A2:B2"] } ∧
    (batch_update true [{ range := "A2:B2", values := [[PyVal.vstr "a"]] }]).1.failed_ranges = [] :=
  ⟨(C9_batch_update_all_or_nothing false [{ range := "A2:B2", values := [[PyVal.vstr "a"]] }]).2.1 rfl,
   (C9_batch_update_all_or_nothing true [{ range := "A2:B2", values := [[PyVal.vstr "a"]] }]).2.2.1
     (by decide)⟩

/-- Available items never change the running order status. -/
theorem update_overall_available (o : String) : update_overall o "available" = o := by
  have h1 : ¬ (("available" : String) ≠ "available") := by decide
  have h2 : ¬ (("available" : String) = "invalid_product") := by decide
  simp only [update_overall, if_neg h2, if_neg h1]

/-- Any non-available, non-invalid_product item resets the running order
status to "partial", whatever it was before — including "failed". -/
theorem update_overall_resets (o s : String) (h1 : s ≠ "available")
    (h2 : s ≠ "invalid_product") : update_overall o s = "partial" := by
  simp only [update_overall, if_pos h1, if_neg h2]

/-- An invalid_product item always sets the running order status to "failed". -/
theorem update_overall_invalid_product (o : String) :
    update_overall o "invalid_product" = "failed" := by
  simp [update_overall]

/-- Folding the aggregation over only-available statuses keeps the status. -/
theorem foldl_update_overall_all_available (l : List String) (o : String)
    (h : ∀ x ∈ l, x = "available") : l.foldl update_overall o = o := by
  induction l generalizing o with
  | nil => rfl
  | cons x xs ih =>
    have hx := h x (by simp)
    rw [List.foldl_cons, hx, update_overall_available]
    exact ih o (fun y hy => h y (by simp [hy]))

/-- Closed form of the status aggregation fold: the last non-available item
decides the outcome. -/
theorem foldl_update_overall_eq (l : List String) (o : String) :
    l.foldl update_overall o =
      (match (l.filter (fun s => s ≠ "available")).getLast? with
       | none => o
       | some s => if s = "invalid_product" then "failed" else "partial") := by
  induction l generalizing o with
  | nil => rfl
  | cons x xs ih =>
    rw [List.foldl_cons, ih (update_overall o x)]
    by_cases hx : x = "available"
    · subst hx
      have hf : (("available" :: xs).filter (fun s => s ≠ "available")) =
          xs.filter (fun s => s ≠ "available") := by simp
      rw [hf, update_overall_available]
    · have hf : ((x :: xs).filter (fun s => s ≠ "available")) =
          x :: xs.filter (fun s => s ≠ "available") := by simp [hx]
      rw [hf]
      cases hfe : xs.filter (fun s => s ≠ "available") with
      | nil =>
        simp only [hfe, List.getLast?_nil, List.getLast?_singleton]
        by_cases hinv : x = "invalid_product"
        · rw [if_pos hinv, hinv, update_overall_invalid_product]
        · rw [if_neg hinv, update_overall_resets o x hx hinv]
      | cons y ys =>
        rw [List.getLast?_cons_cons]
        cases hz : (y :: ys).getLast? with
        | none =>
          rw [List.getLast?_eq_none_iff] at hz
          exact absurd hz (List.cons_ne_nil y ys)
        | some z => rfl

/-- C2 amended: the aggregation in `process_order` starts at "fulfilled";
an available item leaves the running status unchanged (so once "failed",
later available items keep it "failed"), an invalid_product item sets it
to "failed", and any other non-available item resets it to "partial" —
hence the final order status is decided by the last non-available item:
"fulfilled" if every item is available, otherwise "failed" exactly when
the last non-available item is invalid_product, else "partial". The
aggregation is therefore not monotone non-improving. -/
theorem C2_amended_last_nonavailable_decides (statuses : List String) :
    aggregate_status statuses =
      (match (statuses.filter (fun s => s ≠ "available")).getLast? with
       | none => "fulfilled"
       | some s => if s = "invalid_product" then "failed" else "partial") ∧
    (∀ o : String, update_overall o "available" = o) ∧
    (∀ o s : String, s ≠ "available" → s ≠ "invalid_product" →
      update_overall o s = "partial") ∧
    (∀ o : String, update_overall o "invalid_product" = "failed") :=
  ⟨foldl_update_overall_eq statuses "fulfilled", update_overall_available,
   update_overall_resets, update_overall_invalid_product⟩

/-- Witness for C2 amended: failed followed by available stays failed;
failed followed by partial resets to partial. -/
theorem C2_amended_last_nonavailable_decides_witness :
    aggregate_status ["invalid_product", "available"] = "failed" ∧
    update_overall "failed" "partial" = "partial" :=
  ⟨((C2_amended_last_nonavailable_decides ["invalid_product", "available"]).1).trans
    (by decide),
   (C2_amended_last_nonavailable_decides []).2.2.1 "failed" "partial"
     (by decide) (by decide)⟩

/-- C8: `bulk_process` isolates per-order failures. An exception escaping
one order's processing is caught, recorded as a processing_error entry
carrying the error text for that order only, the failed count is
incremented, and the loop continues on the remaining orders with the
engine ledger untouched. In particular, over 3 orders where order 2's
inventory read raises on every retry while orders 1 and 3 are fully
fulfilled, the summary has success_count 2, failed_count 1, and order 2's
entry carries status processing_error. -/
theorem C8_bulk_process_isolates_failures (inv : Inv) (n : Nat)
    (ledger : List (String × OrderResult)) (acc : BulkSummary) (orderId : String)
    (items : List (String × Int)) (rest : List (String × List (String × Int)))
    (e : PyError) (n1 : Nat) :
    (process_order inv n orderId items = .error (e, n1) →
      bulk_process_go inv n ledger acc ((orderId, items) :: rest) =
        bulk_process_go inv n1 ledger
          { success_count := acc.success_count,
            failed_count := acc.failed_count + 1,
            processed_orders :=
              dictInsert acc.processed_orders orderId (.procError e.msg),
            inventory_changes := acc.inventory_changes } rest) ∧
    ((bulk_process (fun _ pid => if pid = "P2" then StockResp.err else .val 5) 0 []
        [("O1", [("P1", 1)]), ("O2", [("P2", 1)]), ("O3", [("P3", 1)])]).1.success_count = 2 ∧
     (bulk_process (fun _ pid => if pid = "P2" then StockResp.err else .val 5) 0 []
        [("O1", [("P1", 1)]), ("O2", [("P2", 1)]), ("O3", [("P3", 1)])]).1.failed_count = 1 ∧
     dictLookup (bulk_process (fun _ pid => if pid = "P2" then StockResp.err else .val 5) 0 []
        [("O1", [("P1", 1)]), ("O2", [("P2", 1)]), ("O3", [("P3", 1)])]).1.processed_orders "O2" =
       some (.procError (PyError.msg .remoteError))) := by
  constructor
  · intro he
    simp [bulk_process_go, process_order_ledger, he]
  · exact ⟨rfl, rfl, rfl⟩

/-- Witness for C8 at a concrete failing order: the erroring head order is
recorded as processing_error and processing continues on the tail. -/
theorem C8_bulk_process_isolates_failures_witness :
    bulk_process_go (fun _ _ => StockResp.notFound) 0 []
        { success_count := 0, failed_count := 0,
          processed_orders := [], inventory_changes := [] }
        [("O1", [("PX", 1)])] =
      bulk_process_go (fun _ _ => StockResp.notFound) 2 []
        { success_count := 0, failed_count := 1,
          processed_orders := dictInsert [] "O1" (.procError (PyError.msg .typeError)),
          inventory_changes := [] } [] :=
  (C8_bulk_process_isolates_failures (fun _ _ => StockResp.notFound) 0 []
    { success_count := 0, failed_count := 0,
      processed_orders := [], inventory_changes := [] }
    "O1" [("PX", 1)] [] .typeError 2).1 rfl

/-- C10: the processed-order ledger is updated atomically per order. If
`process_order` raises, the ledger is unchanged; if it returns normally
with result r, the ledger afterwards maps the order id to exactly r,
overwriting any prior entry, and every other key is unmapped or mapped as
before. -/
theorem C10_ledger_atomic (inv : Inv) (n : Nat)
    (ledger : List (String × OrderResult)) (orderId : String)
    (items : List (String × Int)) :
    (∀ e, process_order inv n orderId items = .error e →
      (process_order_ledger inv n ledger orderId items).2 = ledger) ∧
    (∀ r n1, process_order inv n orderId items = .ok (r, n1) →
      (process_order_ledger inv n ledger orderId items).2 =
        dictInsert ledger orderId r ∧
      dictLookup (process_order_ledger inv n ledger orderId items).2 orderId =
        some r ∧
      ∀ k, k ≠ orderId →
        dictLookup (process_order_ledger inv n ledger orderId items).2 k =
          dictLookup ledger k) := by
  constructor
  · intro e he
    simp [process_order_ledger, he]
  · intro r n1 hr
    refine ⟨by simp [process_order_ledger, hr], ?_, ?_⟩
    · simp [process_order_ledger, hr, dictLookup_dictInsert_self]
    · intro k hk
      simp [process_order_ledger, hr, dictLookup_dictInsert_ne _ _ _ _ hk]

/-- Witness for C10: a raising order leaves the ledger empty; a successful
order is found in the ledger under its id with exactly the returned
result. -/
theorem C10_ledger_atomic_witness :
    (process_order_ledger (fun _ _ => StockResp.notFound) 0 [] "O1" [("PX", 1)]).2 = [] ∧
    dictLookup (process_order_ledger (fun _ _ => StockResp.val 5) 0 [] "O1"
        [("P1", 1)]).2 "O1" =
      some { order_id := "O1", status := "fulfilled",
             items := [{ product_id := "P1", requested := 1, fulfilled := 1,
                         status := "available", remaining_stock := 4 }] } :=
  ⟨(C10_ledger_atomic (fun _ _ => StockResp.notFound) 0 [] "O1" [("PX", 1)]).1
     (.typeError, 2) rfl,
   ((C10_ledger_atomic (fun _ _ => StockResp.val 5) 0 [] "O1" [("P1", 1)]).2
     { order_id := "O1", status := "fulfilled",
       items := [{ product_id := "P1", requested := 1, fulfilled := 1,
                   status := "available", remaining_stock := 4 }] } 2 rfl).2.1⟩

/-- Ceiling-division step: removing one full-or-final batch of size b. -/
theorem ceil_div_step (L b : Nat) (hb : 0 < b) (hL : 0 < L) :
    (L - b + b - 1) / b + 1 = (L + b - 1) / b := by
  rcases le_or_lt b L with h | h
  · have h1 : L - b + b - 1 = L - 1 := by omega
    have h2 : L + b - 1 = (L - 1) + b := by omega
    rw [h1, h2, Nat.add_div_right _ hb]
  · have h1 : L - b = 0 := by omega
    have h2 : L + b - 1 = (L - 1) + b := by omega
    rw [h1, h2, Nat.add_div_right _ hb, Nat.zero_add]
    have h3 : b - 1 < b := by omega
    have h4 : L - 1 < b := by omega
    rw [Nat.div_eq_of_lt h3, Nat.div_eq_of_lt h4]

/-- Invariant of the `append_rows` batch loop: counts come from the
validation filter, every remote call carries only projections of valid
rows (in order), the batch counter equals the number of remote calls,
and with every row valid the number of remote calls is ceil(N/b). -/
theorem append_rows_go_spec (validRow : Row → Bool) (header : List String)
    (b : Nat) (hb : 0 < b) :
    ∀ (N : Nat) (rows : List Row), rows.length ≤ N → ∀ i : Nat,
      (append_rows_go validRow header b i rows).1.success =
          (rows.filter (fun r => validRow r)).length ∧
      (append_rows_go validRow header b i rows).1.failed =
          (rows.filter (fun r => !validRow r)).length ∧
      (append_rows_go validRow header b i rows).1.errors.length =
          (rows.filter (fun r => !validRow r)).length ∧
      (append_rows_go validRow header b i rows).2.flatten =
          (rows.filter (fun r => validRow r)).map (projectRow header) ∧
      (append_rows_go validRow header b i rows).1.batches =
          (append_rows_go validRow header b i rows).2.length ∧
      ((∀ r ∈ rows, validRow r = true) →
        (append_rows_go validRow header b i rows).2.length =
          (rows.length + b - 1) / b) := by
  intro N
  induction N with
  | zero =>
    intro rows hlen i
    have h0 : rows = [] := List.length_eq_zero.mp (Nat.le_zero.mp hlen)
    subst h0
    simp [append_rows_go, Nat.div_eq_of_lt (show b - 1 < b by omega)]
  | succ N ih =>
    intro rows hlen i
    match rows with
    | [] => simp [append_rows_go, Nat.div_eq_of_lt (show b - 1 < b by omega)]
    | x :: xs =>
      have hxs : xs.length ≤ N := by
        have := hlen
        simp [List.length_cons] at this
        omega
      have hdrop : (xs.drop (b - 1)).length ≤ N := by
        rw [List.length_drop]
        omega
      obtain ⟨ih1, ih2, ih3, ih4, ih5, ih6⟩ := ih (xs.drop (b - 1)) hdrop (i + b)
      have hsplit : (x :: xs.take (b - 1)) ++ xs.drop (b - 1) = x :: xs := by
        rw [List.cons_append, List.take_append_drop]
      have hfilter : ∀ p : Row → Bool,
          (x :: xs).filter p =
            ((x :: xs.take (b - 1)).filter p) ++ ((xs.drop (b - 1)).filter p) := by
        intro p
        rw [← List.filter_append, hsplit]
      rw [append_rows_go]
      refine ⟨?_, ?_, ?_, ?_, ?_, ?_⟩
      · simp [ih1, hfilter]
      · simp [ih2, hfilter]
      · simp [ih3, hfilter]
      · by_cases hemp : ((x :: xs.take (b - 1)).filter (fun r => validRow r)).isEmpty
        · simp [hemp, hfilter, List.map_append, List.isEmpty_iff.mp hemp, ih4]
        · simp [hemp, hfilter, List.map_append, ih4]
      · by_cases hemp : ((x :: xs.take (b - 1)).filter (fun r => validRow r)).isEmpty
        · simp [hemp, ih5]
        · simp [hemp, ih5]
          omega
      · intro hall
        have hallxs : ∀ r ∈ xs.drop (b - 1), validRow r = true :=
          fun r hr => hall r (List.mem_cons_of_mem x (List.mem_of_mem_drop hr))
        have hbatch : (x :: xs.take (b - 1)).filter (fun r => validRow r) =
            x :: xs.take (b - 1) := by
          rw [List.filter_eq_self]
          intro a ha
          rcases List.mem_cons.mp ha with h | h
          · exact h ▸ hall x (List.mem_cons_self x xs)
          · exact hall a (List.mem_cons_of_mem x (List.mem_of_mem_take h))
        simp only [hbatch, List.isEmpty_cons, if_false, Bool.false_eq_true,
          List.length_cons]
        rw [ih6 hallxs, List.length_drop]
        have hL : xs.length - (b - 1) = xs.length + 1 - b := by omega
        rw [hL]
        exact ceil_div_step (xs.length + 1) b hb (Nat.succ_pos _)

/-- C4: for every call to `append_rows` with batch size b ≥ 1: when every
row passes validation, exactly ceil(N/b) remote append calls are issued
and the report is success = N, failed = 0; in general the rows sent
across all remote append calls are exactly the valid rows in order
(so no invalid row is ever included in a remote call), failed counts
exactly the invalid rows, and errors carries exactly one entry per
invalid row. -/
theorem C4_append_rows_reports (validRow : Row → Bool)
    (schemaHeaders : Option (List String)) (b : Nat) (rows : List Row)
    (hb : 0 < b) :
    ((∀ r ∈ rows, validRow r = true) →
      (append_rows validRow schemaHeaders b rows).2.length =
          (rows.length + b - 1) / b ∧
      (append_rows validRow schemaHeaders b rows).1.success = rows.length ∧
      (append_rows validRow schemaHeaders b rows).1.failed = 0) ∧
    (append_rows validRow schemaHeaders b rows).2.flatten =
      (rows.filter (fun r => validRow r)).map
        (projectRow (headerOrderOf schemaHeaders rows)) ∧
    (append_rows validRow schemaHeaders b rows).1.failed =
      (rows.filter (fun r => !validRow r)).length ∧
    (append_rows validRow schemaHeaders b rows).1.errors.length =
      (append_rows validRow schemaHeaders b rows).1.failed ∧
    (append_rows validRow schemaHeaders b rows).1.batches =
      (append_rows validRow schemaHeaders b rows).2.length := by
  obtain ⟨h1, h2, h3, h4, h5, h6⟩ :=
    append_rows_go_spec validRow (headerOrderOf schemaHeaders rows) b hb
      rows.length rows (le_refl _) 0
  have hu : append_rows validRow schemaHeaders b rows =
      append_rows_go validRow (headerOrderOf schemaHeaders rows) b 0 rows := rfl
  rw [hu]
  refine ⟨fun hall => ⟨h6 hall, ?_, ?_⟩, h4, h2, by rw [h3, h2], h5⟩
  · rw [h1, List.filter_eq_self.mpr hall]
  · rw [h2, List.filter_eq_nil_iff.mpr (fun a ha => by simp [hall a ha])]
    rfl

/-- Witness for C4: three all-valid rows with batch size 2 give two remote
append calls carrying all three projected rows, success 3, failed 0. -/
theorem C4_append_rows_reports_witness :
    (append_rows (fun _ => true) none 2
        [[("a", PyVal.vint 1)], [("a", PyVal.vint 2)], [("a", PyVal.vint 3)]]).2.length = 2 ∧
    (append_rows (fun _ => true) none 2
        [[("a", PyVal.vint 1)], [("a", PyVal.vint 2)], [("a", PyVal.vint 3)]]).1.success = 3 ∧
    (append_rows (fun _ => true) none 2
        [[("a", PyVal.vint 1)], [("a", PyVal.vint 2)], [("a", PyVal.vint 3)]]).1.failed = 0 :=
  (C4_append_rows_reports (fun _ => true) none 2
      [[("a", PyVal.vint 1)], [("a", PyVal.vint 2)], [("a", PyVal.vint 3)]]
      (by decide)).1 (fun _ _ => rfl)

/-- A nested `append_rows(sheet_name, [row])` call for one valid row issues
exactly one remote append carrying that row's projection. -/
theorem append_rows_single_valid (validRow : Row → Bool)
    (schemaHeaders : Option (List String)) (row : Row) (h : validRow row = true) :
    (append_rows validRow schemaHeaders 100 [row]).2 =
      [[projectRow (headerOrderOf schemaHeaders [row]) row]] := by
  simp [append_rows, append_rows_go, h]

/-- Invariant of the `update_or_create` row loop: the enqueued range updates
are exactly one single-row update per validated row with an existing id
(at the looked-up absolute row), the remote appends are exactly one per
validated row with a novel id, and the counts follow the same filters. -/
theorem update_or_create_go_spec (validRow : Row → Bool)
    (schemaHeaders : Option (List String)) (idCol : String)
    (existing : List (String × Nat)) (rows : List Row) :
    (update_or_create_go validRow schemaHeaders idCol existing rows).2.1 =
      (rows.filter (fun row => validRow row &&
          (dictLookup existing (rowIdOf idCol row)).isSome)).map
        (fun row =>
          { range := mkRangeStr ((dictLookup existing (rowIdOf idCol row)).getD 0)
              row.length,
            values := [row.map (fun kv => rowGet row kv.1 (.vstr ""))] }) ∧
    (update_or_create_go validRow schemaHeaders idCol existing rows).2.2 =
      (rows.filter (fun row => validRow row &&
          (dictLookup existing (rowIdOf idCol row)).isNone)).map
        (fun row => [projectRow (headerOrderOf schemaHeaders [row]) row]) ∧
    (update_or_create_go validRow schemaHeaders idCol existing rows).1.updated =
      (rows.filter (fun row => validRow row &&
          (dictLookup existing (rowIdOf idCol row)).isSome)).length ∧
    (update_or_create_go validRow schemaHeaders idCol existing rows).1.created =
      (rows.filter (fun row => validRow row &&
          (dictLookup existing (rowIdOf idCol row)).isNone)).length ∧
    (update_or_create_go validRow schemaHeaders idCol existing rows).1.errors =
      (rows.filter (fun row => !validRow row)).length := by
  induction rows with
  | nil => simp [update_or_create_go]
  | cons row rest ih =>
    obtain ⟨ih1, ih2, ih3, ih4, ih5⟩ := ih
    by_cases hv : validRow row
    · cases hl : dictLookup existing (rowIdOf idCol row) with
      | some num =>
        simp [update_or_create_go, hv, hl, ih1, ih2, ih3, ih4, ih5]
      | none =>
        simp [update_or_create_go, hv, hl, ih1, ih2, ih3, ih4, ih5,
          append_rows_single_valid validRow schemaHeaders row hv]
    · simp [update_or_create_go, hv, ih1, ih2, ih3, ih4, ih5]

/-- Every binding of the `existing_ids` dict comes from an enumerated sheet
record containing the id column: the stored row number is that record's
index plus 2 and the key is its stringified id value. -/
theorem existing_ids_position (idCol : String) (records : List Row)
    (C : String → Nat → Prop)
    (hC : ∀ p, p ∈ records.enum → ∀ kv,
      p.2.find? (fun q => q.1 = idCol) = some kv → C kv.2.toStr (p.1 + 2)) :
    ∀ s num, dictLookup (existing_ids idCol records) s = some num → C s num := by
  suffices h : ∀ (ps : List (Nat × Row)) (acc : List (String × Nat)),
      (∀ p, p ∈ ps → ∀ kv, p.2.find? (fun q => q.1 = idCol) = some kv →
        C kv.2.toStr (p.1 + 2)) →
      (∀ s num, dictLookup acc s = some num → C s num) →
      ∀ s num,
        dictLookup (ps.foldl (fun acc p =>
          match p.2.find? (fun kv => kv.1 = idCol) with
          | some kv => dictInsert acc kv.2.toStr (p.1 + 2)
          | none => acc) acc) s = some num → C s num by
    intro s num hlook
    exact h records.enum [] hC (fun s' num' h0 => by simp [dictLookup] at h0)
      s num hlook
  intro ps
  induction ps with
  | nil => exact fun acc hps hacc s num hl => hacc s num hl
  | cons p ps ih =>
    intro acc hps hacc s num hl
    rw [List.foldl_cons] at hl
    refine ih _ (fun q hq kv hkv => hps q (List.mem_cons_of_mem p hq) kv hkv)
      ?_ s num hl
    intro s' num' hl'
    cases hf : p.2.find? (fun kv => kv.1 = idCol) with
    | none =>
      rw [hf] at hl'
      exact hacc s' num' hl'
    | some kv =>
      rw [hf] at hl'
      by_cases hs : s' = kv.2.toStr
      · subst hs
        rw [dictLookup_dictInsert_self] at hl'
        exact Option.some.inj hl' ▸ hps p (List.mem_cons_self p ps) kv hf
      · rw [dictLookup_dictInsert_ne _ _ _ _ hs] at hl'
        exact hacc s' num' hl'

/-- C5 counterexample: an input row whose id value "1" already occurs in the
sheet read, but which fails row validation, produces no range update at
all (it is only counted under errors), so not every input row with an
already-present id produces a single-row range update. -/
theorem C5_upsert_counterexample :
    (dictLookup (existing_ids "id" [[("id", PyVal.vstr "1")]]) "1").isSome = true ∧
    update_or_create (fun _ => false) none "id" [[("id", PyVal.vstr "1")]]
        [[("id", PyVal.vstr "1")]] =
      ({ updated := 0, created := 0, errors := 1 }, [], [], 0) :=
  ⟨by decide, by decide⟩

/-- C5 amended: for every call to `update_or_create`, each input row that
passes row validation and whose stringified id already occurs in the
existing-id index of the full sheet read produces exactly one single-row
range update targeting the stored absolute position and is never
appended; each validated row with a novel id produces exactly one remote
append call and no range update; rows failing validation produce neither
and are only counted under errors; at most one batched update call is
issued per invocation; and every stored absolute position is its record's
header offset plus 1-based index (index + 2). -/
theorem C5_update_or_create_upsert (validRow : Row → Bool)
    (schemaHeaders : Option (List String)) (idCol : String)
    (records : List Row) (rows : List Row) :
    (update_or_create validRow schemaHeaders idCol records rows).2.1 =
      (rows.filter (fun row => validRow row &&
          (dictLookup (existing_ids idCol records) (rowIdOf idCol row)).isSome)).map
        (fun row =>
          { range := mkRangeStr
              ((dictLookup (existing_ids idCol records) (rowIdOf idCol row)).getD 0)
              row.length,
            values := [row.map (fun kv => rowGet row kv.1 (.vstr ""))] }) ∧
    (update_or_create validRow schemaHeaders idCol records rows).2.2.1 =
      (rows.filter (fun row => validRow row &&
          (dictLookup (existing_ids idCol records) (rowIdOf idCol row)).isNone)).map
        (fun row => [projectRow (headerOrderOf schemaHeaders [row]) row]) ∧
    (update_or_create validRow schemaHeaders idCol records rows).1.updated =
      (rows.filter (fun row => validRow row &&
          (dictLookup (existing_ids idCol records) (rowIdOf idCol row)).isSome)).length ∧
    (update_or_create validRow schemaHeaders idCol records rows).1.created =
      (rows.filter (fun row => validRow row &&
          (dictLookup (existing_ids idCol records) (rowIdOf idCol row)).isNone)).length ∧
    (update_or_create validRow schemaHeaders idCol records rows).1.errors =
      (rows.filter (fun row => !validRow row)).length ∧
    (update_or_create validRow schemaHeaders idCol records rows).2.2.2 ≤ 1 ∧
    (∀ s num, dictLookup (existing_ids idCol records) s = some num →
      ∃ p, p ∈ records.enum ∧ num = p.1 + 2 ∧
        ∃ kv, p.2.find? (fun q => q.1 = idCol) = some kv ∧ kv.2.toStr = s) := by
  obtain ⟨h1, h2, h3, h4, h5⟩ :=
    update_or_create_go_spec validRow schemaHeaders idCol
      (existing_ids idCol records) rows
  refine ⟨h1, h2, h3, h4, h5, ?_, ?_⟩
  · show (if (update_or_create_go validRow schemaHeaders idCol
        (existing_ids idCol records) rows).2.1.isEmpty then 0 else 1) ≤ 1
    split <;> omega
  · exact existing_ids_position idCol records _
      (fun p hp kv hkv => ⟨p, hp, rfl, kv, hkv, rfl⟩)

/-- Witness for C5 amended: with everything valid, the row with existing id
"1" yields exactly one single-row update at absolute row 2 and the row
with novel id "3" yields exactly one remote append; the stored position 2
for id "1" is record index 0 plus the header offset. -/
theorem C5_update_or_create_upsert_witness :
    (update_or_create (fun _ => true) none "id" [[("id", PyVal.vstr "1")]]
        [[("id", PyVal.vstr "1")], [("id", PyVal.vstr "3")]]).2.1 =
      [{ range := mkRangeStr 2 1, values := [[PyVal.vstr "1"]] }] ∧
    (update_or_create (fun _ => true) none "id" [[("id", PyVal.vstr "1")]]
        [[("id", PyVal.vstr "1")], [("id", PyVal.vstr "3")]]).2.2.1 =
      [[["3"]]] ∧
    (∃ p, p ∈ ([[("id", PyVal.vstr "1")]] : List Row).enum ∧ 2 = p.1 + 2 ∧
      ∃ kv, p.2.find? (fun q => q.1 = "id") = some kv ∧ kv.2.toStr = "1") :=
  ⟨((C5_update_or_create_upsert (fun _ => true) none "id" [[("id", PyVal.vstr "1")]]
      [[("id", PyVal.vstr "1")], [("id", PyVal.vstr "3")]]).1).trans (by decide),
   ((C5_update_or_create_upsert (fun _ => true) none "id" [[("id", PyVal.vstr "1")]]
      [[("id", PyVal.vstr "1")], [("id", PyVal.vstr "3")]]).2.1).trans (by decide),
   (C5_update_or_create_upsert (fun _ => true) none "id" [[("id", PyVal.vstr "1")]]
      [[("id", PyVal.vstr "1")], [("id", PyVal.vstr "3")]]).2.2.2.2.2.2 "1" 2
     (by decide)⟩

end GenAIEmail
